import Mathlib

/-!
Verification of the `python-javabridge-windows` bootstrap utility
(`javabridge/download_java.py` and `javabridge/locate.py`).

The Python code is shallowly embedded as follows.

* Python strings are `String`; the handful of `str` methods the source uses
  (`startswith`, `endswith`, slicing, `rfind`) are modelled on `String.data`
  (lists of characters, which matches Python's code-point indexing).
* Paths handled by `locate.py` stay plain strings, joined by a model of
  `posixpath.join` for two arguments.
* The stateful download module works with paths represented as lists of path
  segments: `os.path.join(p, name)` appends a segment, `os.path.basename`
  is the last segment and `os.path.dirname` drops it.  The constants joined
  by the source ("acdc-java", "win64", "jre1.8.0_301", ...) are single
  separator-free segments, so this representation is faithful.
* The filesystem is the list of existing paths (`os.path.exists` is list
  membership); network and filesystem side effects are recorded in a trace.
* Fallible Python code returns `Except PyErr`: `nameError` models a
  `NameError` from reading an unbound local, `typeError` the `TypeError`
  raised when unpacking `None`.  `unsupportedPlatformError` is the explicit
  error demanded by the specification; the source never produces it.
-/

inductive PyErr where
  | nameError
  | typeError
  | unsupportedPlatformError
deriving DecidableEq, Repr

/-- Host description: `sys.platform` and the Windows `PROCESSOR_ARCHITECTURE`
environment variable (consulted only when `sys.platform` starts with "win"). -/
structure Platform where
  sysPlatform : String
  processorArchitecture : String
deriving DecidableEq, Repr

/-- Python `s.startswith(t)` on code points. -/
def pyStartsWith (s t : String) : Bool := t.data.isPrefixOf s.data

/-- Python `s.endswith(t)` on code points. -/
def pyEndsWith (s t : String) : Bool := t.data.isSuffixOf s.data

/-- Python `s[:n]` on code points. -/
def pyTake (s : String) (n : Nat) : String := ⟨s.data.take n⟩

/-- Does the substring "jre" occur in `l` starting at index `i`? -/
def matchesJreAt (l : List Char) (i : Nat) : Bool :=
  (l.drop i).take 3 == ['j', 'r', 'e']

/-- Highest start index `≤ i` at which "jre" occurs. -/
def rfindJreAux (l : List Char) : Nat → Option Nat
  | 0 => if matchesJreAt l 0 then some 0 else none
  | i + 1 => if matchesJreAt l (i + 1) then some (i + 1) else rfindJreAux l i

/-- Python `s.rfind("jre")`: the highest index at which "jre" occurs.  The
source only calls this under an `endswith` guard that guarantees an
occurrence, so the not-found case (Python's `-1`) is collapsed to `0`. -/
def rfindJre (s : String) : Nat := (rfindJreAux s.data s.data.length).getD 0

/-- `posixpath.join(a, b)`: `b` absolute replaces, otherwise a "/" separator
is inserted unless `a` is empty or already ends with "/". -/
def posixJoin (a b : String) : String :=
  if pyStartsWith b "/" then b
  else if a == "" || pyEndsWith a "/" then a ++ b
  else a ++ "/" ++ b

/-- First binding of `k` in the environment, modelling `os.environ`. -/
def lookupEnv (env : List (String × String)) (k : String) : Option String :=
  (env.find? (fun kv => kv.1 == k)).map (fun kv => kv.2)

/-- `locate.find_javahome`: the `JAVA_HOME` environment variable if set, else
the result of `download_java()` (passed in as `dlJava`, which may fail). -/
def find_javahome (env : List (String × String)) (dlJava : Except PyErr String) :
    Except PyErr String :=
  match lookupEnv env "JAVA_HOME" with
  | some v => .ok v
  | none => dlJava

/-- `locate.find_jdk`.  `dlJava` / `dlJdk` stand for the results of the
`download_java()` / `download_jdk()` calls it may make.  The Python function
falls off the end (returns `None`) on a platform that is neither Linux, mac
nor Windows, hence the `Option` in the result. -/
def find_jdk (p : Platform) (env : List (String × String))
    (dlJava dlJdk : Except PyErr String) : Except PyErr (Option String) :=
  match lookupEnv env "JDK_HOME" with
  | some v => .ok (some v)
  | none =>
    let is_linux := pyStartsWith p.sysPlatform "linux"
    let is_mac := p.sysPlatform == "darwin"
    let is_win := pyStartsWith p.sysPlatform "win"
    if is_linux then
      match find_javahome env dlJava with
      | .error e => .error e
      | .ok jdk_home =>
        if pyEndsWith jdk_home "jre" || pyEndsWith jdk_home "jre/" then
          .ok (some (pyTake jdk_home (rfindJre jdk_home)))
        else .ok (some jdk_home)
    else if is_mac then
      match find_javahome env dlJava with
      | .error e => .error e
      | .ok jh => .ok (some jh)
    else if is_win then
      match dlJdk with
      | .error e => .error e
      | .ok jdk_path => .ok (some jdk_path)
    else .ok none

/-- The jvm shared-library file name for the platform:
`jvm.dll` on Windows, `libjvm.dylib` on mac, `libjvm.so` elsewhere. -/
def jvmLibName (p : Platform) : String :=
  let is_mac := p.sysPlatform == "darwin"
  let is_win := pyStartsWith p.sysPlatform "win"
  (if is_win then "" else "lib") ++ "jvm" ++
    (if is_win then ".dll" else if is_mac then ".dylib" else ".so")

/-- The inner two loops of `locate.find_jre_bin_jdk_so` for one candidate
`jre_home`: try each arch subfolder ("amd64", "i386", "" on Linux; only ""
elsewhere) and each of "client"/"server", returning the first `jvm_so` path
present in the filesystem `fs`. -/
def searchJreHome (p : Platform) (fs : List String) (jre_home : String) :
    Option String :=
  let is_linux := pyStartsWith p.sysPlatform "linux"
  let is_win := pyStartsWith p.sysPlatform "win"
  let jre_libexec := posixJoin jre_home (if is_win then "bin" else "lib")
  let arches := if is_linux then ["amd64", "i386", ""] else [""]
  arches.findSome? fun arch =>
    ["client", "server"].findSome? fun place_to_look =>
      let jvm_dir := posixJoin (posixJoin jre_libexec arch) place_to_look
      let jvm_so := posixJoin jvm_dir (jvmLibName p)
      if fs.contains jvm_so then some jvm_so else none

/-- `locate.find_jre_bin_jdk_so`.  `java_home` is the value returned by
`find_javahome()`; `fs` the set of existing files.  When `java_home` is
`None` the loop body never runs and the final `return (jre_bin, None)` reads
the never-assigned local `jre_bin`, a `NameError`.  Otherwise the first
candidate whose jvm library file exists wins; with no winner the function
returns the bin directory of the last candidate `jre_home`
(`java_home/default-runtime`) paired with `none`. -/
def find_jre_bin_jdk_so (p : Platform) (fs : List String)
    (java_home : Option String) : Except PyErr (String × Option String) :=
  match java_home with
  | none => .error .nameError
  | some jh =>
    let homes := [jh, posixJoin jh "jre", posixJoin jh "default-java",
      posixJoin jh "default-runtime"]
    match homes.findSome? (fun h =>
        (searchJreHome p fs h).map (fun so => (posixJoin h "bin", so))) with
    | some pr => .ok (pr.1, some pr.2)
    | none => .ok (posixJoin (posixJoin jh "default-runtime") "bin", none)

/-- The flattened, ordered list of (jre bin dir, jvm library path) candidates
that `find_jre_bin_jdk_so` probes, in probe order. -/
def jvmCandidates (p : Platform) (jh : String) : List (String × String) :=
  let is_linux := pyStartsWith p.sysPlatform "linux"
  let is_win := pyStartsWith p.sysPlatform "win"
  let homes := [jh, posixJoin jh "jre", posixJoin jh "default-java",
    posixJoin jh "default-runtime"]
  let arches := if is_linux then ["amd64", "i386", ""] else [""]
  homes.flatMap fun h =>
    let jre_libexec := posixJoin h (if is_win then "bin" else "lib")
    arches.flatMap fun arch =>
      ["client", "server"].map fun place_to_look =>
        (posixJoin h "bin",
          posixJoin (posixJoin (posixJoin jre_libexec arch) place_to_look)
            (jvmLibName p))

/-! ## The download module: paths as segment lists, filesystem as path set -/

/-- A filesystem path, as the list of its segments. -/
abbrev SegPath := List String

/-- Filesystem operations performed by the download module. -/
inductive FsOp where
  | mkdir : SegPath → FsOp
  | write : SegPath → FsOp
  | move : SegPath → SegPath → FsOp
  | remove : SegPath → FsOp
  | rmtree : SegPath → FsOp
deriving DecidableEq, Repr

/-- Result of a download run: the returned path, the final filesystem, the
remote ids fetched over the network, and the filesystem operations in order
of execution. -/
structure RunResult where
  path : SegPath
  fs : List SegPath
  net : List String
  ops : List FsOp
deriving DecidableEq, Repr

/-- `get_acdc_java_path`: `(<home>/acdc-java, <home>/.acdc-java)`. -/
def get_acdc_java_path (home : SegPath) : SegPath × SegPath :=
  (home ++ ["acdc-java"], home ++ [".acdc-java"])

/-- The tuple `get_java_info` / `get_jdk_info` return: the per-platform
folder under `acdc-java`, the runtime directory inside it (`jre_path` also
stands for `download_jdk`'s `jdk_path`), the remote file id and the
expected byte size. -/
structure JavaInfo where
  java_path : SegPath
  jre_path : SegPath
  file_id : String
  file_size : Nat
deriving DecidableEq, Repr

/-- `get_java_info()`.  Branches exactly as the source: win64, mac, linux,
then 32-bit Windows, which hits a bare `return` (`.ok none`); any other
platform leaves `foldername` unbound and the `os.path.join` raises a
`NameError`. -/
def get_java_info (p : Platform) (home : SegPath) : Except PyErr (Option JavaInfo) :=
  let is_linux := pyStartsWith p.sysPlatform "linux"
  let is_mac := p.sysPlatform == "darwin"
  let is_win := pyStartsWith p.sysPlatform "win"
  let is_win64 := is_win && (p.processorArchitecture == "AMD64")
  let acdc_java_path := (get_acdc_java_path home).1
  if is_win64 then
    .ok (some ⟨acdc_java_path ++ ["win64"], acdc_java_path ++ ["win64", "jre1.8.0_301"],
      "1G5zsMusJsB6to_bA-8wT5FHJ6yoS2oCu", 78397719⟩)
  else if is_mac then
    .ok (some ⟨acdc_java_path ++ ["macOS"], acdc_java_path ++ ["macOS", "jre1.8.0_301"],
      "1G487QwDlEUJVFLfJkuxvTkFPY_I0XTb8", 108796810⟩)
  else if is_linux then
    .ok (some ⟨acdc_java_path ++ ["linux"], acdc_java_path ++ ["linux", "jre1.8.0_301"],
      "1Fz8krhOS8JsX-GhkRDeMiEnAIWqZmCfP", 92145253⟩)
  else if is_win then
    .ok none
  else
    .error .nameError

/-- `get_jdk_info()`: a single hardcoded Windows-64 JDK profile. -/
def get_jdk_info (home : SegPath) : JavaInfo :=
  let acdc_java_path := (get_acdc_java_path home).1
  ⟨acdc_java_path ++ ["win64"], acdc_java_path ++ ["win64", "jdk1.8.0_321"],
    "1G6SNk5vESqgdxob5UQv87PgVpIJa_dTe", 135524352⟩

/-- `download_from_gdrive(file_id, zip_dst)` at the filesystem level
(`save_response_content`): make a fresh temporary directory `tmpDir`
(`tempfile.mkdtemp`), stream the body into `tmpDir/<basename zip_dst>`,
create `dirname zip_dst` if missing, move the temporary file onto `zip_dst`
and remove the temporary directory tree.  Returns the new filesystem, the
operations in order, and the single network request. -/
def gdriveFsRun (file_id : String) (zip_dst tmpDir : SegPath) (fs : List SegPath) :
    List SegPath × List FsOp × List String :=
  let temp_dst := tmpDir ++ [zip_dst.getLastD ""]
  let fs1 := temp_dst :: tmpDir :: fs
  let destination_dir := zip_dst.dropLast
  let fs2 := if fs1.contains destination_dir then fs1 else destination_dir :: fs1
  let mkOps : List FsOp :=
    if fs1.contains destination_dir then [] else [FsOp.mkdir destination_dir]
  let fs3 := zip_dst :: fs2.erase temp_dst
  let fs4 := fs3.filter (fun q => !(tmpDir.isPrefixOf q))
  (fs4, [FsOp.mkdir tmpDir, FsOp.write temp_dst] ++ mkOps ++
    [FsOp.move temp_dst zip_dst, FsOp.rmtree tmpDir], [file_id])

/-- `extract_zip(zip_path, extract_to)`: `ZipFile.extractall` creates every
archive entry (a relative segment path) under `extract_to`. -/
def extractZipRun (extract_to : SegPath) (entries : List SegPath)
    (fs : List SegPath) : List SegPath × List FsOp :=
  let made := entries.map (fun e => extract_to ++ e)
  (made ++ fs, made.map FsOp.write)

/-- `download_java()`.  `tmpDir` is the directory `tempfile.mkdtemp` creates
on this run; `entries` are the entry paths of the remote zip archive.
Mirrors the source: resolve the profile (unpacking a `None` profile raises
`TypeError`), return the primary directory if it exists, else the legacy
`.acdc-java` directory if that exists, else create the base directory,
fetch, extract, and delete the downloaded archive. -/
def download_java (p : Platform) (home tmpDir : SegPath) (fs : List SegPath)
    (entries : List SegPath) : Except PyErr RunResult :=
  match get_java_info p home with
  | .error e => .error e
  | .ok none => .error .typeError
  | .ok (some info) =>
    let java_path := info.java_path
    let jre_path := info.jre_path
    let zip_dst := java_path ++ ["java_temp.zip"]
    if fs.contains jre_path then .ok ⟨jre_path, fs, [], []⟩
    else
      let jre_name := jre_path.getLastD ""
      let os_foldername := jre_path.dropLast.getLastD ""
      let dot_acdc_java_path := (get_acdc_java_path home).2
      let jre_old_path := dot_acdc_java_path ++ [os_foldername, jre_name]
      if fs.contains jre_old_path then .ok ⟨jre_old_path, fs, [], []⟩
      else
        let fs1 := if fs.contains java_path then fs else java_path :: fs
        let ops1 : List FsOp :=
          if fs.contains java_path then [] else [FsOp.mkdir java_path]
        let g := gdriveFsRun info.file_id zip_dst tmpDir fs1
        let ex := extractZipRun java_path entries g.1
        let fs4 := ex.1.erase zip_dst
        .ok ⟨jre_path, fs4, g.2.2, ops1 ++ g.2.1 ++ ex.2 ++ [FsOp.remove zip_dst]⟩

/-- `download_jdk()`.  Same shape as `download_java` over the hardcoded JDK
profile, with archive name `jdk_temp.zip` and no explicit `makedirs` before
the fetch (the Fetcher creates the destination directory itself). -/
def download_jdk (home tmpDir : SegPath) (fs : List SegPath)
    (entries : List SegPath) : RunResult :=
  let info := get_jdk_info home
  let java_path := info.java_path
  let jdk_path := info.jre_path
  let zip_dst := java_path ++ ["jdk_temp.zip"]
  if fs.contains jdk_path then ⟨jdk_path, fs, [], []⟩
  else
    let jdk_name := jdk_path.getLastD ""
    let os_foldername := jdk_path.dropLast.getLastD ""
    let dot_acdc_java_path := (get_acdc_java_path home).2
    let jdk_old_path := dot_acdc_java_path ++ [os_foldername, jdk_name]
    if fs.contains jdk_old_path then ⟨jdk_old_path, fs, [], []⟩
    else
      let g := gdriveFsRun info.file_id zip_dst tmpDir fs
      let ex := extractZipRun java_path entries g.1
      let fs4 := ex.1.erase zip_dst
      ⟨jdk_path, fs4, g.2.2, g.2.1 ++ ex.2 ++ [FsOp.remove zip_dst]⟩

/-! ## The Fetcher at byte level -/

/-- A streamed HTTP response: its cookies and the chunks that
`iter_content(32768)` yields (bytes as naturals). -/
structure HttpResponse where
  cookies : List (String × String)
  chunks : List (List Nat)
deriving DecidableEq, Repr

/-- `get_confirm_token(response)`: the value of the first cookie whose key
starts with "download_warning", else `None`. -/
def get_confirm_token (r : HttpResponse) : Option String :=
  match r.cookies.find? (fun kv => pyStartsWith kv.1 "download_warning") with
  | some kv => some kv.2
  | none => none

/-- What `save_response_content` leaves at the destination and emits to the
progress sink. -/
structure SaveResult where
  fileBytes : List Nat
  emits : List (Int × Int)
deriving DecidableEq, Repr

/-- `save_response_content(response, destination, file_size, ..., progress)`:
emit `(file_size, -1)` when both a size and a sink are supplied, then for
each truthy (non-empty) chunk append it to the file and emit
`(-1, len(chunk))`.  The bytes are streamed to a temporary file which is
then moved onto the destination, so the destination holds exactly the bytes
written. -/
def save_response_content (r : HttpResponse) (file_size : Option Nat)
    (progress : Bool) : SaveResult :=
  let startEmits : List (Int × Int) :=
    match file_size, progress with
    | some n, true => [((n : Int), -1)]
    | _, _ => []
  let step := fun (acc : List Nat × List (Int × Int)) (chunk : List Nat) =>
    if chunk ≠ [] then
      (acc.1 ++ chunk,
        acc.2 ++ (if progress then [((-1 : Int), (chunk.length : Int))] else []))
    else acc
  let fin := r.chunks.foldl step ([], [])
  ⟨fin.1, startEmits ++ fin.2⟩

/-- `download_from_gdrive(id, destination, file_size, ..., progress)`.
`get` is the HTTP session: it maps the query parameters of a GET on the
fixed endpoint to the response.  Returns the parameter lists of the GETs
issued, in order, and the save outcome.  `if token:` reissues the GET only
when the token is a non-empty string. -/
def download_from_gdrive (get : List (String × String) → HttpResponse)
    (id : String) (file_size : Option Nat) (progress : Bool) :
    List (List (String × String)) × SaveResult :=
  let params := [("id", id)]
  let response := get params
  match get_confirm_token response with
  | some token =>
    if token ≠ "" then
      let params2 := [("id", id), ("confirm", token)]
      let response2 := get params2
      ([params, params2], save_response_content response2 file_size progress)
    else ([params], save_response_content response file_size progress)
  | none => ([params], save_response_content response file_size progress)

/-- The specification's view of JDK derivation: strip a trailing "jre"
(three characters) or "jre/" (four characters) suffix from the JRE path,
otherwise return it unchanged.  Compared below against the source's
`rfind`-based slice in `find_jdk`. -/
def specStripTrailingJre (s : String) : String :=
  if pyEndsWith s "jre" then pyTake s (s.data.length - 3)
  else if pyEndsWith s "jre/" then pyTake s (s.data.length - 4)
  else s

/-! ## Fixtures used by witnesses and counterexamples -/

/-- The paths an `FsOp` creates, modifies or deletes. -/
def opTargets : FsOp → List SegPath
  | .mkdir q => [q]
  | .write q => [q]
  | .move a b => [a, b]
  | .remove q => [q]
  | .rmtree q => [q]

/-- A first `download_java` run on a bare Linux host (no installation, the
archive containing the runtime directory). -/
def c4FirstRun : RunResult :=
  (download_java ⟨"linux", ""⟩ ["h"] ["t"] [] [["jre1.8.0_301"]]).toOption.getD
    ⟨[], [], [], []⟩

/-- A session whose first response carries a `download_warning` cookie with
an empty value. -/
def gdriveEmptyTokenSession : List (String × String) → HttpResponse :=
  fun _ => ⟨[("download_warning_abc", "")], [[1, 2]]⟩

/-- A session whose first response carries a `download_warning` cookie with
a non-empty value, and whose confirmed response has a different body. -/
def gdriveTokenSession : List (String × String) → HttpResponse :=
  fun ps => if ps.length == 1 then ⟨[("download_warning_x", "tok")], [[5]]⟩
    else ⟨[], [[9, 9]]⟩

/-- A full (cache-miss) `download_java` run on a bare Linux host, used to
exhibit the temporary-directory write. -/
def c9LinuxRun : RunResult :=
  (download_java ⟨"linux", ""⟩ ["home", "u"] ["tmp", "t1"] []
    [["jre1.8.0_301"]]).toOption.getD ⟨[], [], [], []⟩

/-! ## Helper lemmas about the download module -/

/-- Every successful profile has the shape `<home>/acdc-java/<folder>` with
runtime directory `jre1.8.0_301` inside it. -/
lemma get_java_info_shape (p : Platform) (home : SegPath) (info : JavaInfo)
    (h : get_java_info p home = .ok (some info)) :
    ∃ folder, info.java_path = home ++ ["acdc-java", folder] ∧
      info.jre_path = home ++ ["acdc-java", folder, "jre1.8.0_301"] := by
  simp only [get_java_info, get_acdc_java_path] at h
  split_ifs at h <;>
    simp only [Except.ok.injEq, Option.some.injEq, reduceCtorEq] at h
  · exact ⟨"win64", by simp [← h]⟩
  · exact ⟨"macOS", by simp [← h]⟩
  · exact ⟨"linux", by simp [← h]⟩

lemma snoc_getLast? (l : List String) (a b c : String) :
    (l ++ [a, b, c]).getLast? = some c := by
  rw [show l ++ [a, b, c] = (l ++ [a, b]) ++ [c] by simp]
  exact List.getLast?_concat _

lemma snoc_dropLast (l : List String) (a b c : String) :
    (l ++ [a, b, c]).dropLast = l ++ [a, b] := by
  rw [show l ++ [a, b, c] = (l ++ [a, b]) ++ [c] by simp]
  exact List.dropLast_concat

lemma snoc2_getLast? (l : List String) (a b : String) :
    (l ++ [a, b]).getLast? = some b := by
  rw [show l ++ [a, b] = (l ++ [a]) ++ [b] by simp]
  exact List.getLast?_concat _

/-- Cache hit on the primary directory: `download_java` returns it with no
effects at all. -/
lemma download_java_primary_hit (p : Platform) (home tmpDir : SegPath)
    (fs entries : List SegPath) (info : JavaInfo)
    (h : get_java_info p home = .ok (some info))
    (hc : info.jre_path ∈ fs) :
    download_java p home tmpDir fs entries = .ok ⟨info.jre_path, fs, [], []⟩ := by
  unfold download_java
  rw [h]
  simp [hc]

/-- Cache hit on the legacy `.acdc-java` directory: `download_java` returns
the legacy path with no effects. -/
lemma download_java_legacy_hit (p : Platform) (home tmpDir : SegPath)
    (fs entries : List SegPath) (info : JavaInfo) (folder : String)
    (h : get_java_info p home = .ok (some info))
    (hjr : info.jre_path = home ++ ["acdc-java", folder, "jre1.8.0_301"])
    (hc1 : info.jre_path ∉ fs)
    (hc2 : home ++ [".acdc-java", folder, "jre1.8.0_301"] ∈ fs) :
    download_java p home tmpDir fs entries =
      .ok ⟨home ++ [".acdc-java", folder, "jre1.8.0_301"], fs, [], []⟩ := by
  unfold download_java get_acdc_java_path
  rw [h]
  rw [hjr] at hc1
  simp [hjr, hc1, snoc_getLast?, snoc_dropLast, snoc2_getLast?, hc2]

/-- Cache hit on the primary JDK directory. -/
lemma download_jdk_primary_hit (home tmpDir : SegPath) (fs entries : List SegPath)
    (hc : home ++ ["acdc-java", "win64", "jdk1.8.0_321"] ∈ fs) :
    download_jdk home tmpDir fs entries =
      ⟨home ++ ["acdc-java", "win64", "jdk1.8.0_321"], fs, [], []⟩ := by
  unfold download_jdk get_jdk_info get_acdc_java_path
  simp [hc]

/-- Cache hit on the legacy JDK directory. -/
lemma download_jdk_legacy_hit (home tmpDir : SegPath) (fs entries : List SegPath)
    (hc1 : home ++ ["acdc-java", "win64", "jdk1.8.0_321"] ∉ fs)
    (hc2 : home ++ [".acdc-java", "win64", "jdk1.8.0_321"] ∈ fs) :
    download_jdk home tmpDir fs entries =
      ⟨home ++ [".acdc-java", "win64", "jdk1.8.0_321"], fs, [], []⟩ := by
  unfold download_jdk get_jdk_info get_acdc_java_path
  simp [hc1, snoc_getLast?, snoc_dropLast, snoc2_getLast?, hc2]

/-! ## Claim C1 -/

/-- Claim C1, counterexample: on 32-bit Windows (`sys.platform = "win32"`,
`PROCESSOR_ARCHITECTURE = "x86"`), `get_java_info` does NOT fail with an
explicit `UnsupportedPlatformError`: it returns normally with no profile
(Python `None`), and `download_java` consequently dies with a `TypeError`
while unpacking `None`, which is not the explicit error the claim
requires. -/
theorem win32_resolution_counterexample :
    get_java_info ⟨"win32", "x86"⟩ ["h"] = .ok none
    ∧ download_java ⟨"win32", "x86"⟩ ["h"] ["t"] [] [] = .error PyErr.typeError
    ∧ PyErr.typeError ≠ PyErr.unsupportedPlatformError :=
  ⟨by rfl, by rfl, by decide⟩

/-- Claim C1, amended: on 32-bit Windows (any `PROCESSOR_ARCHITECTURE`
other than "AMD64"), platform-profile resolution produces no value —
`get_java_info` returns normally with `None` rather than raising an
explicit `UnsupportedPlatformError` — and `download_java` then fails with
the incidental `TypeError` from unpacking `None`. -/
theorem win32_resolution_silent_none (arch : String) (home tmpDir : SegPath)
    (fs entries : List SegPath) (h : arch ≠ "AMD64") :
    get_java_info ⟨"win32", arch⟩ home = .ok none ∧
    download_java ⟨"win32", arch⟩ home tmpDir fs entries = .error PyErr.typeError := by
  have hb : (arch == "AMD64") = false := beq_eq_false_iff_ne.mpr h
  have h1 : pyStartsWith "win32" "linux" = false := by decide
  have h2 : (("win32" : String) == "darwin") = false := by decide
  have h3 : pyStartsWith "win32" "win" = true := by decide
  have hg : get_java_info ⟨"win32", arch⟩ home = .ok none := by
    unfold get_java_info
    simp [hb, h1, h2, h3]
  exact ⟨hg, by unfold download_java; rw [hg]⟩

/-- Claim C1, witness for the amended theorem at a concrete input. -/
theorem win32_resolution_silent_none_witness :
    get_java_info ⟨"win32", "x86"⟩ ["home"] = .ok none ∧
    download_java ⟨"win32", "x86"⟩ ["home"] ["tmp"] [] [] = .error PyErr.typeError :=
  win32_resolution_silent_none "x86" ["home"] ["tmp"] [] [] (by decide)

/-! ## Claim C4 -/

/-- Claim C4: whenever the primary runtime directory already exists,
`download_java` (given any resolvable profile) and `download_jdk` return
that directory's path with an empty network trace and no filesystem
operations; consequently a second call after any successful first call
whose archive contains the runtime directory performs no network request
and leaves the filesystem unchanged. -/
theorem download_idempotent_cache_hit :
    (∀ (p : Platform) (home tmpDir : SegPath) (fs entries : List SegPath)
        (info : JavaInfo),
      get_java_info p home = .ok (some info) → info.jre_path ∈ fs →
      download_java p home tmpDir fs entries = .ok ⟨info.jre_path, fs, [], []⟩)
    ∧ (∀ (home tmpDir : SegPath) (fs entries : List SegPath),
      home ++ ["acdc-java", "win64", "jdk1.8.0_321"] ∈ fs →
      download_jdk home tmpDir fs entries =
        ⟨home ++ ["acdc-java", "win64", "jdk1.8.0_321"], fs, [], []⟩)
    ∧ (∀ (p : Platform) (home tmpDir tmpDir2 : SegPath) (fs entries : List SegPath)
        (info : JavaInfo) (r : RunResult),
      get_java_info p home = .ok (some info) →
      ["jre1.8.0_301"] ∈ entries →
      download_java p home tmpDir fs entries = .ok r →
      ∃ path2, download_java p home tmpDir2 r.fs entries = .ok ⟨path2, r.fs, [], []⟩) := by
  refine ⟨fun p home tmpDir fs entries info h hc =>
      download_java_primary_hit p home tmpDir fs entries info h hc,
    fun home tmpDir fs entries hc =>
      download_jdk_primary_hit home tmpDir fs entries hc, ?_⟩
  intro p home tmpDir tmpDir2 fs entries info r h hE hrun
  obtain ⟨folder, hjp, hjr⟩ := get_java_info_shape p home info h
  unfold download_java get_acdc_java_path at hrun
  rw [h] at hrun
  simp only [hjp, hjr, List.getLastD_eq_getLast?, snoc_getLast?, snoc_dropLast,
    snoc2_getLast?, Option.getD_some, List.append_assoc, List.cons_append,
    List.nil_append, extractZipRun] at hrun
  split_ifs at hrun with h1 h2
  · simp only [Except.ok.injEq] at hrun
    subst hrun
    exact ⟨info.jre_path, download_java_primary_hit p home tmpDir2 fs entries info h
      (by rw [hjr]; exact List.elem_iff.mp h1)⟩
  · simp only [Except.ok.injEq] at hrun
    subst hrun
    exact ⟨home ++ [".acdc-java", folder, "jre1.8.0_301"],
      download_java_legacy_hit p home tmpDir2 fs entries info folder h hjr
        (by rw [hjr]; exact fun hm => h1 (List.elem_iff.mpr hm))
        (List.elem_iff.mp h2)⟩
  all_goals
    simp only [Except.ok.injEq] at hrun
    subst hrun
    refine ⟨info.jre_path, download_java_primary_hit p home tmpDir2 _ entries info h ?_⟩
    rw [hjr]
    have hne : (home ++ ["acdc-java", folder, "jre1.8.0_301"] : SegPath)
        ≠ home ++ ["acdc-java", folder, "java_temp.zip"] := by
      intro he
      have h' := List.append_cancel_left he
      simp at h'
    refine (List.mem_erase_of_ne hne).mpr ?_
    exact List.mem_append_left _
      (List.mem_map.mpr ⟨["jre1.8.0_301"], hE, by simp⟩)

/-- Claim C4, witness: concrete cache hits for `download_java` (Linux) and
`download_jdk`, and a concrete second call after a full first run. -/
theorem download_idempotent_cache_hit_witness :
    download_java ⟨"linux", ""⟩ ["h"] ["t"]
        [["h", "acdc-java", "linux", "jre1.8.0_301"]] []
      = .ok ⟨["h", "acdc-java", "linux", "jre1.8.0_301"],
          [["h", "acdc-java", "linux", "jre1.8.0_301"]], [], []⟩
    ∧ download_jdk ["h"] ["t"] [["h", "acdc-java", "win64", "jdk1.8.0_321"]] []
      = ⟨["h", "acdc-java", "win64", "jdk1.8.0_321"],
          [["h", "acdc-java", "win64", "jdk1.8.0_321"]], [], []⟩
    ∧ ∃ path2, download_java ⟨"linux", ""⟩ ["h"] ["t2"] c4FirstRun.fs
        [["jre1.8.0_301"]] = .ok ⟨path2, c4FirstRun.fs, [], []⟩ :=
  ⟨download_idempotent_cache_hit.1 ⟨"linux", ""⟩ ["h"] ["t"] _ []
      ⟨["h", "acdc-java", "linux"], ["h", "acdc-java", "linux", "jre1.8.0_301"],
        "1Fz8krhOS8JsX-GhkRDeMiEnAIWqZmCfP", 92145253⟩ (by rfl) (by decide),
    download_idempotent_cache_hit.2.1 ["h"] ["t"] _ [] (by decide),
    download_idempotent_cache_hit.2.2 ⟨"linux", ""⟩ ["h"] ["t"] ["t2"] [] [["jre1.8.0_301"]]
      ⟨["h", "acdc-java", "linux"], ["h", "acdc-java", "linux", "jre1.8.0_301"],
        "1Fz8krhOS8JsX-GhkRDeMiEnAIWqZmCfP", 92145253⟩ c4FirstRun
      (by rfl) (by decide) (by rfl)⟩

/-! ## Claim C5 -/

/-- Claim C5: when the primary runtime directory is absent but the
equivalent directory exists under the legacy dot-prefixed base
(`<home>/.acdc-java/<folder>/<runtime>`), `download_java` and
`download_jdk` return the legacy path with no network request and no
filesystem operation — the Fetcher is never invoked. -/
theorem download_legacy_fallback_no_fetch :
    (∀ (p : Platform) (home tmpDir : SegPath) (fs entries : List SegPath)
        (info : JavaInfo) (folder : String),
      get_java_info p home = .ok (some info) →
      info.jre_path = home ++ ["acdc-java", folder, "jre1.8.0_301"] →
      info.jre_path ∉ fs →
      home ++ [".acdc-java", folder, "jre1.8.0_301"] ∈ fs →
      download_java p home tmpDir fs entries =
        .ok ⟨home ++ [".acdc-java", folder, "jre1.8.0_301"], fs, [], []⟩)
    ∧ (∀ (home tmpDir : SegPath) (fs entries : List SegPath),
      home ++ ["acdc-java", "win64", "jdk1.8.0_321"] ∉ fs →
      home ++ [".acdc-java", "win64", "jdk1.8.0_321"] ∈ fs →
      download_jdk home tmpDir fs entries =
        ⟨home ++ [".acdc-java", "win64", "jdk1.8.0_321"], fs, [], []⟩) :=
  ⟨fun p home tmpDir fs entries info folder h hjr hc1 hc2 =>
      download_java_legacy_hit p home tmpDir fs entries info folder h hjr hc1 hc2,
    fun home tmpDir fs entries hc1 hc2 =>
      download_jdk_legacy_hit home tmpDir fs entries hc1 hc2⟩

/-- Claim C5, witness: a concrete legacy-only state on Linux and for the
JDK. -/
theorem download_legacy_fallback_no_fetch_witness :
    download_java ⟨"linux", ""⟩ ["h"] ["t"]
        [["h", ".acdc-java", "linux", "jre1.8.0_301"]] []
      = .ok ⟨["h", ".acdc-java", "linux", "jre1.8.0_301"],
          [["h", ".acdc-java", "linux", "jre1.8.0_301"]], [], []⟩
    ∧ download_jdk ["h"] ["t"] [["h", ".acdc-java", "win64", "jdk1.8.0_321"]] []
      = ⟨["h", ".acdc-java", "win64", "jdk1.8.0_321"],
          [["h", ".acdc-java", "win64", "jdk1.8.0_321"]], [], []⟩ :=
  ⟨download_legacy_fallback_no_fetch.1 ⟨"linux", ""⟩ ["h"] ["t"] _ []
      ⟨["h", "acdc-java", "linux"], ["h", "acdc-java", "linux", "jre1.8.0_301"],
        "1Fz8krhOS8JsX-GhkRDeMiEnAIWqZmCfP", 92145253⟩ "linux" (by rfl) (by rfl)
      (by decide) (by decide),
    download_legacy_fallback_no_fetch.2 ["h"] ["t"] _ [] (by decide) (by decide)⟩

/-! ## Claim C10 -/

/-- Claim C10: on any cache hit — primary runtime directory present, or,
failing that, the legacy runtime directory present — `download_java` and
`download_jdk` change nothing: the returned final filesystem equals the
initial one, the operation trace is empty (no directory created, no
temporary file, no extraction), and the existing path is returned. -/
theorem download_cache_hit_pure_read :
    (∀ (p : Platform) (home tmpDir : SegPath) (fs entries : List SegPath)
        (info : JavaInfo),
      get_java_info p home = .ok (some info) → info.jre_path ∈ fs →
      download_java p home tmpDir fs entries = .ok ⟨info.jre_path, fs, [], []⟩)
    ∧ (∀ (p : Platform) (home tmpDir : SegPath) (fs entries : List SegPath)
        (info : JavaInfo) (folder : String),
      get_java_info p home = .ok (some info) →
      info.jre_path = home ++ ["acdc-java", folder, "jre1.8.0_301"] →
      info.jre_path ∉ fs →
      home ++ [".acdc-java", folder, "jre1.8.0_301"] ∈ fs →
      download_java p home tmpDir fs entries =
        .ok ⟨home ++ [".acdc-java", folder, "jre1.8.0_301"], fs, [], []⟩)
    ∧ (∀ (home tmpDir : SegPath) (fs entries : List SegPath),
      home ++ ["acdc-java", "win64", "jdk1.8.0_321"] ∈ fs →
      download_jdk home tmpDir fs entries =
        ⟨home ++ ["acdc-java", "win64", "jdk1.8.0_321"], fs, [], []⟩)
    ∧ (∀ (home tmpDir : SegPath) (fs entries : List SegPath),
      home ++ ["acdc-java", "win64", "jdk1.8.0_321"] ∉ fs →
      home ++ [".acdc-java", "win64", "jdk1.8.0_321"] ∈ fs →
      download_jdk home tmpDir fs entries =
        ⟨home ++ [".acdc-java", "win64", "jdk1.8.0_321"], fs, [], []⟩) :=
  ⟨fun p home tmpDir fs entries info h hc =>
      download_java_primary_hit p home tmpDir fs entries info h hc,
    fun p home tmpDir fs entries info folder h hjr hc1 hc2 =>
      download_java_legacy_hit p home tmpDir fs entries info folder h hjr hc1 hc2,
    fun home tmpDir fs entries hc =>
      download_jdk_primary_hit home tmpDir fs entries hc,
    fun home tmpDir fs entries hc1 hc2 =>
      download_jdk_legacy_hit home tmpDir fs entries hc1 hc2⟩

/-- Claim C10, witness: concrete cache-hit states for all four cases. -/
theorem download_cache_hit_pure_read_witness :
    download_java ⟨"darwin", ""⟩ ["h"] ["t"]
        [["h", "acdc-java", "macOS", "jre1.8.0_301"]] []
      = .ok ⟨["h", "acdc-java", "macOS", "jre1.8.0_301"],
          [["h", "acdc-java", "macOS", "jre1.8.0_301"]], [], []⟩
    ∧ download_java ⟨"darwin", ""⟩ ["h"] ["t"]
        [["h", ".acdc-java", "macOS", "jre1.8.0_301"]] []
      = .ok ⟨["h", ".acdc-java", "macOS", "jre1.8.0_301"],
          [["h", ".acdc-java", "macOS", "jre1.8.0_301"]], [], []⟩
    ∧ download_jdk ["h"] ["t"] [["h", "acdc-java", "win64", "jdk1.8.0_321"]] []
      = ⟨["h", "acdc-java", "win64", "jdk1.8.0_321"],
          [["h", "acdc-java", "win64", "jdk1.8.0_321"]], [], []⟩
    ∧ download_jdk ["h"] ["t"] [["h", ".acdc-java", "win64", "jdk1.8.0_321"]] []
      = ⟨["h", ".acdc-java", "win64", "jdk1.8.0_321"],
          [["h", ".acdc-java", "win64", "jdk1.8.0_321"]], [], []⟩ :=
  ⟨download_cache_hit_pure_read.1 ⟨"darwin", ""⟩ ["h"] ["t"] _ []
      ⟨["h", "acdc-java", "macOS"], ["h", "acdc-java", "macOS", "jre1.8.0_301"],
        "1G487QwDlEUJVFLfJkuxvTkFPY_I0XTb8", 108796810⟩ (by rfl) (by decide),
    download_cache_hit_pure_read.2.1 ⟨"darwin", ""⟩ ["h"] ["t"] _ []
      ⟨["h", "acdc-java", "macOS"], ["h", "acdc-java", "macOS", "jre1.8.0_301"],
        "1G487QwDlEUJVFLfJkuxvTkFPY_I0XTb8", 108796810⟩ "macOS" (by rfl) (by rfl)
      (by decide) (by decide),
    download_cache_hit_pure_read.2.2.1 ["h"] ["t"] _ [] (by decide),
    download_cache_hit_pure_read.2.2.2 ["h"] ["t"] _ [] (by decide) (by decide)⟩

/-! ## Claim C3 -/

/-- Searching a list for the first element whose image satisfies a predicate,
while pairing it with a fixed first component, is a `find?` over the mapped
list. -/
lemma inner_pair (places : List String) (g : String → String) (bin : String)
    (fs : List String) :
    Option.map (fun so => (bin, so))
        (places.findSome? (fun pl => if fs.contains (g pl) then some (g pl) else none))
      = (places.map (fun pl => (bin, g pl))).find? (fun c => fs.contains c.2) := by
  induction places with
  | nil => rfl
  | cons x xs ih =>
    by_cases h : g x ∈ fs
    · simp [List.findSome?_cons, List.find?_cons, h]
    · simpa [List.findSome?_cons, List.find?_cons, h] using ih

/-- Claim C3: `find_jre_bin_jdk_so`, given a resolved JRE home, never
raises: for every filesystem it returns `.ok` of a bin directory paired
with the FIRST jvm library among the ordered candidates
(`java_home`, then its `jre`, `default-java` and `default-runtime`
subdirectories, each with the platform library dir, the Linux-only arch
subfolders and the `client`/`server` subfolders) that exists in the
filesystem, or paired with the absent indicator `none` when no candidate
exists. -/
theorem find_jre_bin_jdk_so_first_match (p : Platform) (fs : List String) (jh : String) :
    find_jre_bin_jdk_so p fs (some jh) =
      .ok (match (jvmCandidates p jh).find? (fun c => fs.contains c.2) with
        | some c => (c.1, some c.2)
        | none => (posixJoin (posixJoin jh "default-runtime") "bin", none)) := by
  have hpair : ∀ h : String,
      (searchJreHome p fs h).map (fun so => (posixJoin h "bin", so)) =
        ((if pyStartsWith p.sysPlatform "linux" then ["amd64", "i386", ""] else [""]).flatMap
          (fun arch => ["client", "server"].map (fun pl =>
            (posixJoin h "bin",
              posixJoin (posixJoin (posixJoin (posixJoin h
                (if pyStartsWith p.sysPlatform "win" then "bin" else "lib")) arch) pl)
                (jvmLibName p))))).find? (fun c => fs.contains c.2) := by
    intro h
    simp only [searchJreHome]
    rw [List.find?_flatMap, List.map_findSome?]
    refine congrFun (congrArg List.findSome? (funext fun arch => ?_)) _
    simpa [Function.comp] using inner_pair ["client", "server"]
      (fun pl => posixJoin (posixJoin (posixJoin (posixJoin h
        (if pyStartsWith p.sysPlatform "win" then "bin" else "lib")) arch) pl)
        (jvmLibName p))
      (posixJoin h "bin") fs
  have hcand : (jvmCandidates p jh).find? (fun c => fs.contains c.2)
      = ([jh, posixJoin jh "jre", posixJoin jh "default-java",
          posixJoin jh "default-runtime"] : List String).findSome? (fun h =>
            (searchJreHome p fs h).map (fun so => (posixJoin h "bin", so))) := by
    simp only [jvmCandidates]
    rw [List.find?_flatMap]
    refine congrFun (congrArg List.findSome? (funext fun h => ?_)) _
    exact (hpair h).symm
  simp only [find_jre_bin_jdk_so]
  rw [hcand]
  cases hS : ([jh, posixJoin jh "jre", posixJoin jh "default-java",
      posixJoin jh "default-runtime"] : List String).findSome? (fun h =>
        (searchJreHome p fs h).map (fun so => (posixJoin h "bin", so))) with
  | none => rfl
  | some c => rfl

/-! ## Claims C6 and C8 -/

/-- The streaming loop of `save_response_content`: starting from any
accumulator, it appends every chunk's bytes (empty chunks are skipped but
contribute no bytes anyway) and, when a sink is present, one `(-1, len)`
emission per non-empty chunk, in order. -/
lemma save_content_foldl (progress : Bool) (chunks : List (List Nat)) :
    ∀ (content : List Nat) (ems : List (Int × Int)),
    chunks.foldl (fun acc chunk => if chunk ≠ [] then
        (acc.1 ++ chunk,
          acc.2 ++ (if progress then [((-1 : Int), (chunk.length : Int))] else []))
      else acc) (content, ems)
    = (content ++ chunks.flatten,
       ems ++ (if progress then (chunks.filter (fun c => !(c == []))).map
          (fun c => ((-1 : Int), (c.length : Int))) else [])) := by
  induction chunks with
  | nil => intro content ems; simp
  | cons x xs ih =>
    intro content ems
    by_cases h : x = []
    · subst h
      simpa [List.foldl_cons] using ih content ems
    · cases progress
      · simpa [List.foldl_cons, h] using ih (content ++ x) ems
      · simpa [List.foldl_cons, h] using
          ih (content ++ x) (ems ++ [((-1 : Int), (x.length : Int))])

/-- Claim C6: `save_response_content` (the write step of `retrieve`) leaves
at the destination exactly the concatenation of the response body's chunks,
and the destination's final byte length equals the sum of all streamed
chunk lengths. -/
theorem save_response_content_exact_bytes (r : HttpResponse) (file_size : Option Nat)
    (progress : Bool) :
    (save_response_content r file_size progress).fileBytes = r.chunks.flatten
    ∧ (save_response_content r file_size progress).fileBytes.length
        = (r.chunks.map List.length).sum := by
  constructor
  · simp only [save_response_content]
    rw [save_content_foldl progress r.chunks [] []]
    simp
  · simp only [save_response_content]
    rw [save_content_foldl progress r.chunks [] []]
    simp

/-- Claim C8: with a progress sink supplied and an expected size given,
the sink receives `(expectedSize, -1)` exactly once, before any chunk, and
then `(-1, chunkLength)` exactly once per chunk written (the non-empty
chunks, in order), with no other emissions. -/
theorem progress_emission_protocol (r : HttpResponse) (n : Nat) :
    (save_response_content r (some n) true).emits
      = ((n : Int), -1) :: (r.chunks.filter (fun c => !(c == []))).map
          (fun c => ((-1 : Int), (c.length : Int))) := by
  have h := save_content_foldl true r.chunks [] []
  simp at h
  simp [save_response_content, h]

/-! ## Claim C7 -/

/-- Claim C7, counterexample: a first response that carries a cookie whose
key is prefixed `download_warning` but whose value is the empty string.
The claim requires a reissued GET; the code's `if token:` is falsy for an
empty string, so only one GET is issued and the FIRST response's body is
saved. -/
theorem gdrive_empty_token_counterexample :
    (download_from_gdrive gdriveEmptyTokenSession "fid" none false).1
      = [[("id", "fid")]]
    ∧ (gdriveEmptyTokenSession [("id", "fid")]).cookies.any
        (fun kv => pyStartsWith kv.1 "download_warning") = true
    ∧ (download_from_gdrive gdriveEmptyTokenSession "fid" none false).2
      = save_response_content (gdriveEmptyTokenSession [("id", "fid")]) none false :=
  ⟨by rfl, by rfl, by rfl⟩

/-- Claim C7, amended: `retrieve` issues one GET with the remote id; it
reissues the GET with `confirm` set to the first `download_warning`
cookie's value if and only if that value is present AND non-empty, saving
the reissued response's body; with no such cookie, or with an empty token
value, the first response's body is saved after a single GET. -/
theorem gdrive_confirm_protocol (get : List (String × String) → HttpResponse)
    (id : String) (file_size : Option Nat) (progress : Bool) :
    (∀ t, get_confirm_token (get [("id", id)]) = some t → t ≠ "" →
      download_from_gdrive get id file_size progress
        = ([[("id", id)], [("id", id), ("confirm", t)]],
            save_response_content (get [("id", id), ("confirm", t)]) file_size progress))
    ∧ (get_confirm_token (get [("id", id)]) = none →
      download_from_gdrive get id file_size progress
        = ([[("id", id)]], save_response_content (get [("id", id)]) file_size progress))
    ∧ (get_confirm_token (get [("id", id)]) = some "" →
      download_from_gdrive get id file_size progress
        = ([[("id", id)]], save_response_content (get [("id", id)]) file_size progress)) := by
  refine ⟨?_, ?_, ?_⟩
  · intro t ht hne
    simp only [download_from_gdrive, ht]
    simp [hne]
  · intro ht
    simp only [download_from_gdrive, ht]
  · intro ht
    simp only [download_from_gdrive, ht]
    simp

/-- Claim C7, witness for the amended theorem: a session with a non-empty
confirmation token leads to exactly two GETs and saves the second body. -/
theorem gdrive_confirm_protocol_witness :
    download_from_gdrive gdriveTokenSession "f" none false
      = ([[("id", "f")], [("id", "f"), ("confirm", "tok")]],
          save_response_content (gdriveTokenSession [("id", "f"), ("confirm", "tok")])
            none false) :=
  (gdrive_confirm_protocol gdriveTokenSession "f" none false).1 "tok" (by rfl) (by decide)

/-! ## Claim C2 -/

/-- A "jre" occurrence needs three characters of room. -/
lemma matchesJreAt_le {l : List Char} {i : Nat} (h : matchesJreAt l i = true) :
    i + 3 ≤ l.length := by
  unfold matchesJreAt at h
  have he : (l.drop i).take 3 = ['j', 'r', 'e'] := eq_of_beq h
  have hlen := congrArg List.length he
  simp only [List.length_take, List.length_drop, List.length_cons,
    List.length_nil] at hlen
  omega

/-- `rfindJreAux` returns the topmost match when scanning from any index at
or above it. -/
lemma rfindJreAux_eq {l : List Char} {m : Nat}
    (hm : matchesJreAt l m = true)
    (hmax : ∀ j, m < j → matchesJreAt l j = false) :
    ∀ i, m ≤ i → rfindJreAux l i = some m := by
  intro i
  induction i with
  | zero =>
    intro hi
    have h0 : m = 0 := Nat.le_zero.mp hi
    subst h0
    simp [rfindJreAux, hm]
  | succ k ih =>
    intro hi
    by_cases he : m = k + 1
    · subst he
      simp [rfindJreAux, hm]
    · have hk : m ≤ k := by omega
      have hf : matchesJreAt l (k + 1) = false := hmax _ (by omega)
      simp [rfindJreAux, hf, ih hk]

/-- When the string ends with "jre", `rfind("jre")` is `length - 3`. -/
lemma rfindJre_of_suffix_jre {s : String} (h : pyEndsWith s "jre" = true) :
    rfindJre s = s.data.length - 3 := by
  unfold pyEndsWith at h
  rw [List.isSuffixOf_iff_suffix] at h
  obtain ⟨t, ht⟩ := h
  have hlen : s.data.length = t.length + 3 := by
    rw [← ht]; simp
  have hm : matchesJreAt s.data t.length = true := by
    unfold matchesJreAt
    rw [← ht, List.drop_left]
    rfl
  have hmax : ∀ j, t.length < j → matchesJreAt s.data j = false := by
    intro j hj
    cases hb : matchesJreAt s.data j
    · rfl
    · exact absurd (matchesJreAt_le hb) (by omega)
  have hr := rfindJreAux_eq hm hmax s.data.length (by omega)
  unfold rfindJre
  rw [hr]
  simp only [Option.getD_some]
  omega

/-- When the string ends with "jre/", `rfind("jre")` is `length - 4`. -/
lemma rfindJre_of_suffix_jre_slash {s : String} (h : pyEndsWith s "jre/" = true) :
    rfindJre s = s.data.length - 4 := by
  unfold pyEndsWith at h
  rw [List.isSuffixOf_iff_suffix] at h
  obtain ⟨t, ht⟩ := h
  have hlen : s.data.length = t.length + 4 := by
    rw [← ht]; simp
  have hm : matchesJreAt s.data t.length = true := by
    unfold matchesJreAt
    rw [← ht, List.drop_left]
    rfl
  have hm1 : matchesJreAt s.data (t.length + 1) = false := by
    unfold matchesJreAt
    rw [← ht, ← List.drop_drop 1 t.length (t ++ "jre/".data), List.drop_left]
    rfl
  have hmax : ∀ j, t.length < j → matchesJreAt s.data j = false := by
    intro j hj
    by_cases hje : j = t.length + 1
    · subst hje; exact hm1
    · cases hb : matchesJreAt s.data j
      · rfl
      · exact absurd (matchesJreAt_le hb) (by omega)
  have hr := rfindJreAux_eq hm hmax s.data.length (by omega)
  unfold rfindJre
  rw [hr]
  simp only [Option.getD_some]
  omega

/-- Claim C2, counterexample: on macOS with `JDK_HOME` unset and the JRE
path ending in a "jre" segment, `find_jdk` returns the JRE path UNCHANGED —
it does not strip the trailing "jre" segment as the claim requires for
every non-Windows platform. -/
theorem find_jdk_mac_counterexample :
    find_jdk ⟨"darwin", ""⟩ [("JAVA_HOME", "/java/jre")]
        (.error .nameError) (.error .nameError) = .ok (some "/java/jre")
    ∧ "/java/jre" ≠ "/java" ∧ "/java/jre" ≠ "/java/" :=
  ⟨by rfl, by decide, by decide⟩

/-- Claim C2, amended: with `JDK_HOME` unset, on Linux `find_jdk` returns
the `find_javahome` path with a trailing "jre" (three characters) or
"jre/" (four characters) string suffix sliced off — the slice keeps the
separator and is a plain string-suffix test, not a path-segment test — and
returns it unchanged when there is no such suffix; on macOS `find_jdk`
returns the `find_javahome` path unchanged in every case. -/
theorem find_jdk_nonwin (arch : String) (env : List (String × String))
    (dlJava dlJdk : Except PyErr String) (jh : String)
    (hJdkHome : lookupEnv env "JDK_HOME" = none)
    (hJre : find_javahome env dlJava = .ok jh) :
    find_jdk ⟨"linux", arch⟩ env dlJava dlJdk = .ok (some (specStripTrailingJre jh))
    ∧ find_jdk ⟨"darwin", arch⟩ env dlJava dlJdk = .ok (some jh) := by
  have hl : pyStartsWith "linux" "linux" = true := by decide
  have hd1 : pyStartsWith "darwin" "linux" = false := by decide
  have hd2 : (("darwin" : String) == "darwin") = true := by rfl
  constructor
  · simp only [find_jdk, hJdkHome, hl, hJre, if_true]
    by_cases h1 : pyEndsWith jh "jre" = true
    · simp [h1, specStripTrailingJre, rfindJre_of_suffix_jre h1]
    · by_cases h2 : pyEndsWith jh "jre/" = true
      · simp [h1, h2, specStripTrailingJre, rfindJre_of_suffix_jre_slash h2]
      · simp [h1, h2, specStripTrailingJre]
  · simp only [find_jdk, hJdkHome, hd1, hd2, hJre, if_false, if_true]
    simp

/-- Claim C2, witness for the amended theorem: a Linux host strips the
trailing "jre" (keeping the separator), a macOS host does not. -/
theorem find_jdk_nonwin_witness :
    find_jdk ⟨"linux", ""⟩ [("JAVA_HOME", "/opt/java/jre")]
        (.ok "/opt/java/jre") (.error .nameError) = .ok (some "/opt/java/")
    ∧ find_jdk ⟨"darwin", ""⟩ [("JAVA_HOME", "/opt/java/jre")]
        (.ok "/opt/java/jre") (.error .nameError) = .ok (some "/opt/java/jre") :=
  find_jdk_nonwin "" [("JAVA_HOME", "/opt/java/jre")] (.ok "/opt/java/jre")
    (.error .nameError) "/opt/java/jre" (by rfl) (by rfl)

/-! ## Claim C9 -/

/-- The legacy base is never a segment-prefix of a path under the primary
base: the segments ".acdc-java" and "acdc-java" differ. -/
lemma legacy_not_prefix_primary (home : SegPath) (rest : List String) :
    ¬ (home ++ [".acdc-java"]) <+: (home ++ ("acdc-java" :: rest)) := by
  intro h
  rw [List.prefix_append_right_inj, List.cons_prefix_cons] at h
  exact absurd h.1 (by decide)

/-- The primary base is a segment-prefix of every path it heads. -/
lemma primary_heads_path (home : SegPath) (rest : List String) :
    (home ++ ["acdc-java"]) <+: (home ++ ("acdc-java" :: rest)) := by
  rw [List.prefix_append_right_inj, List.cons_prefix_cons]
  exact ⟨rfl, List.nil_prefix⟩

/-- If the legacy base is not a prefix of the temporary directory, it is
not a prefix of a file directly inside it either (unless that file's name
is the legacy segment itself, excluded by `hx`). -/
lemma legacy_not_prefix_snoc_tmp (home tmpDir : SegPath) (x : String)
    (hx : x ≠ ".acdc-java")
    (ht : ¬ (home ++ [".acdc-java"]) <+: tmpDir) :
    ¬ (home ++ [".acdc-java"]) <+: (tmpDir ++ [x]) := by
  intro h
  rw [List.prefix_concat_iff] at h
  rcases h with h | h
  · have h2 := congrArg List.getLast? h
    rw [List.getLast?_concat, List.getLast?_concat] at h2
    exact hx (Option.some.inj h2).symm
  · exact ht h

/-- Any path that is the temporary directory, a file directly inside it, or
a path headed by `<home>/acdc-java` is safe: it is not under the legacy
base, and it lies under the primary base or under the temporary
directory. -/
lemma target_ok (home tmpDir : SegPath) (q : SegPath)
    (htmp : ¬ (home ++ [".acdc-java"]) <+: tmpDir)
    (hq : q = tmpDir ∨ (∃ x, x ≠ ".acdc-java" ∧ q = tmpDir ++ [x])
      ∨ ∃ rest, q = home ++ ("acdc-java" :: rest)) :
    ¬ (home ++ [".acdc-java"]) <+: q
    ∧ ((home ++ ["acdc-java"]) <+: q ∨ tmpDir <+: q) := by
  rcases hq with rfl | ⟨x, hx, rfl⟩ | ⟨rest, rfl⟩
  · exact ⟨htmp, Or.inr List.prefix_rfl⟩
  · exact ⟨legacy_not_prefix_snoc_tmp home tmpDir x hx htmp,
      Or.inr (List.prefix_append tmpDir [x])⟩
  · exact ⟨legacy_not_prefix_primary home rest,
      Or.inl (primary_heads_path home rest)⟩

/-- The filesystem operations of the Fetcher touch only the temporary
directory, the temporary file inside it, the destination's parent
directory, and the destination itself. -/
lemma gdriveFsRun_ops_targets (file_id : String) (zip_dst tmpDir : SegPath)
    (fs : List SegPath) :
    ∀ op ∈ (gdriveFsRun file_id zip_dst tmpDir fs).2.1, ∀ q ∈ opTargets op,
      q = tmpDir ∨ q = tmpDir ++ [zip_dst.getLastD ""]
        ∨ q = zip_dst.dropLast ∨ q = zip_dst := by
  intro op hop q hq
  simp only [gdriveFsRun] at hop
  split_ifs at hop
  all_goals
    simp only [List.mem_append, List.mem_cons, List.not_mem_nil, or_false,
      false_or] at hop
  all_goals simp only [or_assoc] at hop
  all_goals
    rcases hop with rfl | rfl | rfl | rfl | rfl
  all_goals
    simp only [opTargets, List.mem_cons, List.not_mem_nil, or_false] at hq
  all_goals
    tauto

/-- The filesystem operations of extraction target exactly the archive
entries placed under the extraction directory. -/
lemma extractZipRun_ops_targets (base : SegPath) (entries : List SegPath)
    (fs : List SegPath) :
    ∀ op ∈ (extractZipRun base entries fs).2, ∀ q ∈ opTargets op,
      ∃ e, e ∈ entries ∧ q = base ++ e := by
  intro op hop q hq
  simp only [extractZipRun, List.mem_map] at hop
  obtain ⟨a, ⟨e, he, rfl⟩, rfl⟩ := hop
  simp only [opTargets, List.mem_cons, List.not_mem_nil, or_false] at hq
  exact ⟨e, he, hq⟩

/-- Every Fetcher target on a zip destination of the form
`<home>/acdc-java/<folder>/<zipname>` is the temporary directory, a file
directly inside it, or a path headed by the primary base. -/
lemma gdrive_case (fid : String) (home tmpDir : SegPath) (folder zipname : String)
    (fs1 : List SegPath) (q : SegPath) (op : FsOp)
    (hzip : zipname ≠ ".acdc-java")
    (hop : op ∈ (gdriveFsRun fid (home ++ ["acdc-java", folder, zipname]) tmpDir fs1).2.1)
    (hq : q ∈ opTargets op) :
    q = tmpDir ∨ (∃ x, x ≠ ".acdc-java" ∧ q = tmpDir ++ [x])
      ∨ ∃ rest, q = home ++ ("acdc-java" :: rest) := by
  have hlast : (home ++ ["acdc-java", folder, zipname] : SegPath).getLastD "" = zipname := by
    rw [List.getLastD_eq_getLast?, snoc_getLast?]
    rfl
  rcases gdriveFsRun_ops_targets fid _ tmpDir fs1 op hop q hq with rfl | rfl | rfl | rfl
  · exact Or.inl rfl
  · exact Or.inr (Or.inl ⟨zipname, hzip, by rw [hlast]⟩)
  · rw [snoc_dropLast]
    exact Or.inr (Or.inr ⟨[folder], rfl⟩)
  · exact Or.inr (Or.inr ⟨[folder, zipname], rfl⟩)

/-- Claim C9, amended: provided the temporary directory created by
`tempfile.mkdtemp` does not lie under the legacy base, no filesystem
operation of `download_java` or `download_jdk` (including the Fetcher's and
the extraction's) ever touches a path under the legacy dot-prefixed base
`<home>/.acdc-java` — that location is only read — and every touched path
lies under the primary `<home>/acdc-java` base or under the temporary
directory used for streaming. -/
theorem download_writes_avoid_legacy :
    (∀ (p : Platform) (home tmpDir : SegPath) (fs entries : List SegPath)
        (r : RunResult),
      ¬ (home ++ [".acdc-java"]) <+: tmpDir →
      download_java p home tmpDir fs entries = .ok r →
      ∀ op ∈ r.ops, ∀ q ∈ opTargets op,
        ¬ (home ++ [".acdc-java"]) <+: q
        ∧ ((home ++ ["acdc-java"]) <+: q ∨ tmpDir <+: q))
    ∧ (∀ (home tmpDir : SegPath) (fs entries : List SegPath),
      ¬ (home ++ [".acdc-java"]) <+: tmpDir →
      ∀ op ∈ (download_jdk home tmpDir fs entries).ops, ∀ q ∈ opTargets op,
        ¬ (home ++ [".acdc-java"]) <+: q
        ∧ ((home ++ ["acdc-java"]) <+: q ∨ tmpDir <+: q)) := by
  constructor
  · intro p home tmpDir fs entries r htmp hrun op hop q hq
    cases hgi : get_java_info p home with
    | error e =>
      unfold download_java at hrun
      rw [hgi] at hrun
      exact absurd hrun (by simp)
    | ok o =>
      cases o with
      | none =>
        unfold download_java at hrun
        rw [hgi] at hrun
        exact absurd hrun (by simp)
      | some info =>
        obtain ⟨folder, hjp, hjr⟩ := get_java_info_shape p home info hgi
        unfold download_java get_acdc_java_path at hrun
        rw [hgi] at hrun
        simp only [hjp, hjr, List.getLastD_eq_getLast?, snoc_getLast?,
          snoc_dropLast, snoc2_getLast?, Option.getD_some, List.append_assoc,
          List.cons_append, List.nil_append] at hrun
        split_ifs at hrun with h1 h2 h3
        · simp only [Except.ok.injEq] at hrun
          subst hrun
          simp at hop
        · simp only [Except.ok.injEq] at hrun
          subst hrun
          simp at hop
        · simp only [Except.ok.injEq] at hrun
          subst hrun
          simp only [List.nil_append, List.mem_append, List.mem_cons,
            List.not_mem_nil, or_false, false_or] at hop
          apply target_ok home tmpDir q htmp
          rcases hop with hop | hop | hop
          · exact gdrive_case info.file_id home tmpDir folder "java_temp.zip" _
              q op (by decide) hop hq
          · obtain ⟨e, he, rfl⟩ := extractZipRun_ops_targets _ entries _ op hop q hq
            exact Or.inr (Or.inr ⟨folder :: e, by simp⟩)
          · subst hop
            simp only [opTargets, List.mem_cons, List.not_mem_nil, or_false] at hq
            subst hq
            exact Or.inr (Or.inr ⟨[folder, "java_temp.zip"], rfl⟩)
        · simp only [Except.ok.injEq] at hrun
          subst hrun
          simp only [List.mem_append, List.mem_cons, List.not_mem_nil, or_false,
            false_or] at hop
          apply target_ok home tmpDir q htmp
          rcases hop with hop | hop | hop | hop
          · subst hop
            simp only [opTargets, List.mem_cons, List.not_mem_nil, or_false] at hq
            subst hq
            exact Or.inr (Or.inr ⟨[folder], rfl⟩)
          · exact gdrive_case info.file_id home tmpDir folder "java_temp.zip" _
              q op (by decide) hop hq
          · obtain ⟨e, he, rfl⟩ := extractZipRun_ops_targets _ entries _ op hop q hq
            exact Or.inr (Or.inr ⟨folder :: e, by simp⟩)
          · subst hop
            simp only [opTargets, List.mem_cons, List.not_mem_nil, or_false] at hq
            subst hq
            exact Or.inr (Or.inr ⟨[folder, "java_temp.zip"], rfl⟩)
  · intro home tmpDir fs entries htmp op hop q hq
    unfold download_jdk get_jdk_info get_acdc_java_path at hop
    simp only [List.getLastD_eq_getLast?, snoc_getLast?, snoc_dropLast,
      snoc2_getLast?, Option.getD_some, List.append_assoc, List.cons_append,
      List.nil_append] at hop
    split_ifs at hop with h1 h2
    · simp at hop
    · simp at hop
    · simp only [List.mem_append, List.mem_cons, List.not_mem_nil, or_false,
        false_or] at hop
      apply target_ok home tmpDir q htmp
      rcases hop with hop | hop | hop
      · exact gdrive_case "1G6SNk5vESqgdxob5UQv87PgVpIJa_dTe" home tmpDir "win64"
          "jdk_temp.zip" _ q op (by decide) hop hq
      · obtain ⟨e, he, rfl⟩ := extractZipRun_ops_targets _ entries _ op hop q hq
        exact Or.inr (Or.inr ⟨"win64" :: e, by simp⟩)
      · subst hop
        simp only [opTargets, List.mem_cons, List.not_mem_nil, or_false] at hq
        subst hq
        exact Or.inr (Or.inr ⟨["win64", "jdk_temp.zip"], rfl⟩)

/-- Claim C9, witness for the amended theorem, applied to the temporary
directory creation of a concrete full Linux run. -/
theorem download_writes_avoid_legacy_witness :
    ¬ ((["home", "u"] : SegPath) ++ [".acdc-java"]) <+: (["tmp", "t1"] : SegPath)
    ∧ (((["home", "u"] : SegPath) ++ ["acdc-java"]) <+: (["tmp", "t1"] : SegPath)
        ∨ (["tmp", "t1"] : SegPath) <+: (["tmp", "t1"] : SegPath)) :=
  download_writes_avoid_legacy.1 ⟨"linux", ""⟩ ["home", "u"] ["tmp", "t1"] []
    [["jre1.8.0_301"]] c9LinuxRun (by decide) (by rfl)
    (FsOp.mkdir ["tmp", "t1"]) (by decide) ["tmp", "t1"] (by decide)

/-- Claim C9, counterexample to the clause "all writes go under the primary
`<home>/acdc-java` location": a full Linux run creates its streaming
directory under the system temporary root, which is not under the primary
base. -/
theorem download_tmpdir_write_counterexample :
    FsOp.mkdir ["tmp", "t1"] ∈ c9LinuxRun.ops
    ∧ ¬ ((["home", "u"] : SegPath) ++ ["acdc-java"]) <+: (["tmp", "t1"] : SegPath)
    ∧ (download_java ⟨"linux", ""⟩ ["home", "u"] ["tmp", "t1"] []
        [["jre1.8.0_301"]]).toOption = some c9LinuxRun :=
  ⟨by decide, by decide, by rfl⟩
